import Mathlib

/-!
Shallow embedding of the DNSpector core: the DNS wire codec
(src/resolver.py: build_dns_query, parse_dns_response), the host-stub
adapter (src/monitor.py: resolve_system), the orchestrator
(src/monitor.py: resolve_and_log / resolve_with_resolver) and the
history tracker / change detector (src/db.py: DNSDatabase.log_dns_result,
_check_ip_change, get_last_ip, log_ip_alert).

Byte sequences are lists of naturals; Python runtime failures that the
source can hit while indexing or struct-unpacking are made explicit in an
Except monad.
-/

namespace DNSpector

/-- Python runtime errors that the source's decode/encode paths can raise:
IndexError from an out-of-range `data[offset]`, struct.error from
`struct.unpack` on a wrong-sized slice or `struct.pack` on an
out-of-range value. -/
inductive PyErr where
  | indexError
  | structError
deriving DecidableEq

/-- A byte string, one natural (0..255) per byte. -/
abbrev Bytes := List Nat

/-- Python `data[i]` on a bytes object: the byte, or IndexError when the
index is past the end (indices in the source are always nonnegative). -/
def pyIndex (data : Bytes) (i : Nat) : Except PyErr Nat :=
  match data[i]? with
  | some b => .ok b
  | none => .error .indexError

/-- Python `data[start:stop]` for nonnegative bounds: clamps to the
available bytes, never raises. -/
def pySlice (data : Bytes) (start stop : Nat) : Bytes :=
  (data.drop start).take (stop - start)

/-- struct.unpack of six big-endian 16-bit fields from a 12-byte slice
(the header format string in parse_dns_response); struct.error when the
slice is not exactly 12 bytes. -/
def unpack6H (bs : Bytes) : Except PyErr (Nat × Nat × Nat × Nat × Nat × Nat) :=
  match bs with
  | [a, b, c, d, e, f, g, h, i, j, k, l] =>
      .ok (a * 256 + b, c * 256 + d, e * 256 + f, g * 256 + h, i * 256 + j, k * 256 + l)
  | _ => .error .structError

/-- struct.unpack of 16-bit type, 16-bit class, 32-bit TTL, 16-bit data
length from a 10-byte slice (the fixed answer fields in
parse_dns_response); struct.error when the slice is not exactly 10 bytes. -/
def unpackHHIH (bs : Bytes) : Except PyErr (Nat × Nat × Nat × Nat) :=
  match bs with
  | [a, b, c, d, e, f, g, h, i, j] =>
      .ok (a * 256 + b, c * 256 + d, ((e * 256 + f) * 256 + g) * 256 + h, i * 256 + j)
  | _ => .error .structError

/-- DNS query type for an address record (A_RECORD in the source). -/
def A_RECORD : Nat := 1

/-- DNS Internet class (IN_CLASS in the source). -/
def IN_CLASS : Nat := 1

/-- The source's RCODE table mapping response-code values to names. -/
def RCODE (n : Nat) : Option String :=
  match n with
  | 0 => some "NOERROR"
  | 1 => some "FORMERR"
  | 2 => some "SERVFAIL"
  | 3 => some "NXDOMAIN"
  | 4 => some "NOTIMP"
  | 5 => some "REFUSED"
  | _ => none

/-- RCODE.get with the f-string default used by parse_dns_response. -/
def statusOf (rcode : Nat) : String :=
  (RCODE rcode).getD ("RCODE_" ++ toString rcode)

/-- Fuel-indexed body of the label-walking loop of parse_dns_response:
`while data[offset] != 0: offset += 1 + data[offset]` followed by
`offset += 1` for the null byte. Returns the offset just past the
terminating zero byte, or IndexError exactly where Python would raise.
Each loop step advances the offset by at least 2, so any fuel larger than
`data.length - offset` makes the zero-fuel branch unreachable
(`skipNameF_fuel_irrel` below); `skipName` supplies such a fuel. -/
def skipNameF (data : Bytes) : Nat → Nat → Except PyErr Nat
  | 0, _ => .error .indexError
  | fuel + 1, offset =>
      match data[offset]? with
      | none => .error .indexError
      | some b =>
          if b = 0 then .ok (offset + 1)
          else skipNameF data fuel (offset + 1 + b)

/-- The label-walking loop of parse_dns_response at enough fuel to be
exactly the unbounded Python loop. -/
def skipName (data : Bytes) (offset : Nat) : Except PyErr Nat :=
  skipNameF data (data.length + 1) offset

/-- The question-skipping loop of parse_dns_response: for each of the
qdcount questions, walk the name labels then skip 4 bytes of type and
class. -/
def skipQuestions (data : Bytes) (n : Nat) (offset : Nat) : Except PyErr Nat :=
  match n with
  | 0 => .ok offset
  | n + 1 => do
      let o ← skipName data offset
      skipQuestions data n (o + 4)

/-- Dotted rendering of answer data bytes: the join over a dot of the
decimal form of each byte, as in the source. -/
def ipString (rdata : Bytes) : String :=
  String.intercalate "." (rdata.map (fun b => toString b))

/-- Outcome of scanning one answer entry's fixed fields: either the first
matching address record was found, or the offset just past this entry. -/
inductive AnswerStep where
  | found (ip : String) (ttl : Nat)
  | next (offset : Nat)
deriving DecidableEq

/-- The fixed part of one answer entry in parse_dns_response, starting at
the offset just past the entry's name: unpack type/class/TTL/data-length,
advance 10, slice out rdlength data bytes, and either report the first
address record (type A_RECORD, class IN_CLASS, exactly 4 data bytes) or
the offset of the next entry. -/
def answerFixed (data : Bytes) (o1 : Nat) : Except PyErr AnswerStep := do
  let (atype, aclass, attl, rdlength) ← unpackHHIH (pySlice data o1 (o1 + 10))
  if atype = A_RECORD ∧ aclass = IN_CLASS ∧ rdlength = 4 then
    .ok (.found (ipString (pySlice data (o1 + 10) (o1 + 10 + rdlength))) attl)
  else
    .ok (.next (o1 + 10 + rdlength))

/-- Name handling at the start of an answer entry in parse_dns_response:
a byte whose top two bits are set is a compression pointer and the cursor
advances exactly 2 bytes; otherwise the name is walked as labels. Returns
the offset of the entry's fixed fields. -/
def nameEnd (data : Bytes) (offset : Nat) : Except PyErr Nat := do
  let b ← pyIndex data offset
  if b &&& 0xC0 = 0xC0 then pure (offset + 2)
  else skipName data offset

/-- The answer-section loop of parse_dns_response over the remaining
ancount entries: stop with the first address record's ip and ttl, or run
out of entries with none found. -/
def answerLoop (data : Bytes) (n : Nat) (offset : Nat) (status : String) :
    Except PyErr (Option String × Option Nat × String) :=
  match n with
  | 0 => .ok (none, none, status)
  | n + 1 => do
      let o1 ← nameEnd data offset
      match (← answerFixed data o1) with
      | .found ip ttl => .ok (some ip, some ttl, status)
      | .next o3 => answerLoop data n o3 status

/-- parse_dns_response from src/resolver.py: reject inputs shorter than
12 bytes as INVALID_RESPONSE, unpack the header, map the low flags nibble
through the RCODE table, skip the question section, and scan the answer
section for the first address record. Python runtime errors raised by the
unchecked cursor arithmetic surface as Except errors. -/
def parse_dns_response (data : Bytes) : Except PyErr (Option String × Option Nat × String) :=
  if data.length < 12 then .ok (none, none, "INVALID_RESPONSE")
  else do
    let (_tid, flags, qdcount, ancount, _nscount, _arcount) ← unpack6H (pySlice data 0 12)
    let rcode := flags &&& 0x000F
    let status := statusOf rcode
    let offset ← skipQuestions data qdcount 12
    answerLoop data ancount offset status

/-- The Python split of a name on the one-character dot separator used
by encode_domain, over the character list of the string: an empty input
yields one empty part, every dot starts a new part. -/
def splitDot : List Char → List (List Char)
  | [] => [[]]
  | c :: rest =>
      match splitDot rest with
      | [] => [[]]
      | l :: ls => if c = '.' then [] :: l :: ls else (c :: l) :: ls

/-- UTF-8 encoding of one character, by code-point range: what Python
emits per character inside part.encode(). -/
def utf8Bytes (c : Char) : Bytes :=
  if c.toNat < 0x80 then [c.toNat]
  else if c.toNat < 0x800 then
    [0xC0 ||| (c.toNat >>> 6), 0x80 ||| (c.toNat &&& 0x3F)]
  else if c.toNat < 0x10000 then
    [0xE0 ||| (c.toNat >>> 12), 0x80 ||| ((c.toNat >>> 6) &&& 0x3F), 0x80 ||| (c.toNat &&& 0x3F)]
  else
    [0xF0 ||| (c.toNat >>> 18), 0x80 ||| ((c.toNat >>> 12) &&& 0x3F),
     0x80 ||| ((c.toNat >>> 6) &&& 0x3F), 0x80 ||| (c.toNat &&& 0x3F)]

/-- Bytes of a label exactly as part.encode() produces them: the UTF-8
bytes of its characters. The length prefix written by encode_domain
counts characters instead, and the two agree exactly on ASCII labels. -/
def labelBytes (cs : List Char) : Bytes :=
  cs.flatMap utf8Bytes

/-- struct.pack of one unsigned byte (the label length prefix in
encode_domain); struct.error when the value does not fit a byte. -/
def pack_B (n : Nat) : Except PyErr Bytes :=
  if n ≤ 255 then .ok [n] else .error .structError

/-- struct.pack of one big-endian unsigned 16-bit field; every call site
in build_dns_query passes a value below 65536. -/
def pack_H (n : Nat) : Bytes :=
  [n / 256, n % 256]

/-- The joined generator inside encode_domain:
`b''.join(struct.pack('B', len(part)) + part.encode() for part in parts)`,
one length byte then the label bytes per part. -/
def encodeParts : List (List Char) → Except PyErr Bytes
  | [] => .ok []
  | part :: rest => do
      let lenByte ← pack_B part.length
      let restBytes ← encodeParts rest
      pure (lenByte ++ labelBytes part ++ restBytes)

/-- encode_domain from build_dns_query: split on dots, emit each label as
a length byte followed by its bytes, and terminate with a zero byte. -/
def encode_domain (name : String) : Except PyErr Bytes := do
  let body ← encodeParts (splitDot name.toList)
  pure (body ++ [0])

/-- build_dns_query from src/resolver.py. The 16-bit transaction
identifier, drawn in the source from `random.randint(0, 0xFFFF)`, is a
parameter here; flags request a standard recursive query, one question
and empty answer, authority and additional sections, then the encoded
domain with query type A_RECORD and class IN_CLASS. -/
def build_dns_query (tid : Nat) (domain : String) : Except PyErr Bytes := do
  let flags := 0x0100
  let header := pack_H tid ++ pack_H flags ++ pack_H 1 ++ pack_H 0 ++ pack_H 0 ++ pack_H 0
  let qname ← encode_domain domain
  let question := qname ++ pack_H A_RECORD ++ pack_H IN_CLASS
  pure (header ++ question)

/-- Whether build_dns_query produced a packet rather than raising. -/
def buildSucceeds (tid : Nat) (domain : String) : Bool :=
  match build_dns_query tid domain with
  | .ok _ => true
  | .error _ => false

/-- Fuel-indexed reading of a wire-format question name. Each step
consumes at least one byte, so any fuel beyond the input length makes the
zero-fuel branch unreachable (`decodeLabelsF_fuel_irrel` below). -/
def decodeLabelsF : Nat → Bytes → List Bytes
  | 0, _ => []
  | _, [] => []
  | fuel + 1, b :: rest =>
      if b = 0 then []
      else rest.take b :: decodeLabelsF fuel (rest.drop b)

/-- Modelled from the spec: the source has no name decoder (its parser
only skips names), so re-decoding a question name follows the spec's
words for the wire format, reading length-prefixed labels until a
zero-length label terminates the name and returning each label's bytes. -/
def decode_labels (bs : Bytes) : List Bytes :=
  decodeLabelsF (bs.length + 1) bs

/-- Outcome of the platform call `socket.gethostbyname` inside
resolve_system: an address, a gaierror, or any other exception. -/
inductive SysOutcome where
  | addr (ip : String)
  | gaierror (msg : String)
  | exc (msg : String)
deriving DecidableEq

/-- resolve_system from src/monitor.py over the platform outcome: success
yields the address with status NOERROR and no TTL; each failure class is
mapped to its status string with no address. The measured latency is a
parameter. -/
def resolve_system (o : SysOutcome) (latency : Nat) :
    Option String × Option Nat × String × Nat :=
  match o with
  | .addr ip => (some ip, none, "NOERROR", latency)
  | .gaierror m => (none, none, "GAIERRO: " ++ m, latency)
  | .exc m => (none, none, "EXCEPTION: " ++ m, latency)

/-- One row of the dns_logs table, in insertion order. -/
structure LogRow where
  domain : String
  resolver : String
  ip : Option String
  ttl : Option Nat
  status : String
  latency_ms : Nat
deriving DecidableEq

/-- One row of the ip_alerts table. -/
structure Alert where
  domain : String
  resolver : String
  old_ip : Option String
  new_ip : Option String
  reason : String
deriving DecidableEq

/-- The DNSDatabase state: both tables as append-only row lists in
insertion order, so the newest row of a table is its last element. -/
structure DBState where
  logs : List LogRow
  alerts : List Alert
deriving DecidableEq

/-- The WHERE clause of get_last_ip: same domain, same resolver, ip not
NULL. -/
def rowMatches (domain resolver : String) (r : LogRow) : Bool :=
  r.domain == domain && r.resolver == resolver && r.ip.isSome

/-- DNSDatabase.get_last_ip: the ip of the newest dns_logs row for this
domain and resolver whose ip is not NULL (ORDER BY timestamp DESC
LIMIT 1, i.e. the last such row in insertion order). -/
def get_last_ip (db : DBState) (domain resolver : String) : Option String :=
  match db.logs.reverse.find? (rowMatches domain resolver) with
  | some r => r.ip
  | none => none

/-- DNSDatabase.log_ip_alert: append a row to ip_alerts. -/
def log_ip_alert (db : DBState) (domain resolver : String)
    (old_ip new_ip : Option String) (reason : String) : DBState :=
  { db with alerts := db.alerts ++ [⟨domain, resolver, old_ip, new_ip, reason⟩] }

/-- DNSDatabase._check_ip_change: look up the last known ip and, when one
exists (Python truthiness: non-None and nonempty) and differs from the
new ip, log an IP_CHANGED alert. -/
def check_ip_change (db : DBState) (domain resolver new_ip : String) : DBState :=
  match get_last_ip db domain resolver with
  | some last_ip =>
      if last_ip ≠ "" ∧ last_ip ≠ new_ip then
        log_ip_alert db domain resolver (some last_ip) (some new_ip) "IP_CHANGED"
      else db
  | none => db

/-- DNSDatabase.log_dns_result: insert the new dns_logs row first, then,
when the ip is truthy and the status is NOERROR, run the ip-change check
against the database that already contains the new row. -/
def log_dns_result (db : DBState) (domain resolver : String) (ip : Option String)
    (ttl : Option Nat) (status : String) (latency_ms : Nat) : DBState :=
  let db1 : DBState := { db with logs := db.logs ++ [⟨domain, resolver, ip, ttl, status, latency_ms⟩] }
  match ip with
  | some s => if s ≠ "" ∧ status = "NOERROR" then check_ip_change db1 domain resolver s else db1
  | none => db1

/-- Outcome of the transport bound to one resolver name, as seen by
resolve_with_resolver: the returned (ip, ttl, status, latency) tuple, or
an exception raised inside the attempt. -/
inductive TargetOutcome where
  | value (ip : Option String) (ttl : Option Nat) (status : String) (lat : Nat)
  | raised (msg : String)
deriving DecidableEq

/-- The resolver names resolve_with_resolver dispatches on. -/
def RESOLVER_NAMES : List String :=
  ["google", "cloudflare", "system", "google_doh", "cloudflare_doh"]

/-- The fixed target list of resolve_and_log. -/
def TARGETS : List String := ["google", "cloudflare", "system"]

/-- resolve_with_resolver from src/monitor.py over an environment `tr`
giving each transport's outcome: a known name runs its transport and, on
a returned tuple, logs it to the database before handing it back; an
exception propagates to the caller; an unknown name yields
UNKNOWN_RESOLVER without logging. -/
def resolve_with_resolver (tr : String → TargetOutcome) (db : DBState)
    (domain name : String) :
    Except String ((Option String × Option Nat × String × Nat) × DBState) :=
  if name ∈ RESOLVER_NAMES then
    match tr name with
    | .value ip ttl st lat => .ok ((ip, ttl, st, lat), log_dns_result db domain name ip ttl st lat)
    | .raised m => .error m
  else
    .ok ((none, none, "UNKNOWN_RESOLVER", 0), db)

/-- One entry of the aggregate mapping that resolve_and_log returns. -/
structure Entry where
  ip : Option String
  ttl : Option Nat
  status : String
  latency_ms : Nat
deriving DecidableEq

/-- The loop of resolve_and_log: try each target in order; a returned
tuple becomes that target's entry and the updated database is kept, a
raised exception is caught and becomes an EXCEPTION entry for that target
alone. The mapping is an association list keyed by resolver name. -/
def resolveAndLogGo (tr : String → TargetOutcome) (domain : String) :
    List String → DBState → List (String × Entry) → List (String × Entry) × DBState
  | [], db, results => (results, db)
  | name :: rest, db, results =>
      match resolve_with_resolver tr db domain name with
      | .ok ((ip, ttl, st, lat), db1) =>
          resolveAndLogGo tr domain rest db1 (results ++ [(name, ⟨ip, ttl, st, lat⟩)])
      | .error m =>
          resolveAndLogGo tr domain rest db (results ++ [(name, ⟨none, none, "EXCEPTION: " ++ m, 0⟩)])

/-- resolve_and_log from src/monitor.py: fan out over the fixed target
list, collecting one entry per target. -/
def resolve_and_log (tr : String → TargetOutcome) (db : DBState) (domain : String) :
    List (String × Entry) × DBState :=
  resolveAndLogGo tr domain TARGETS db []

/-- The per-target entry the spec prescribes, written from the spec's
words for comparison with resolve_and_log: a returned tuple is reported
unchanged; a raised failure is reported for that target as an EXCEPTION
status with no address and zero latency. -/
def entryFor : TargetOutcome → Entry
  | .value ip ttl st lat => ⟨ip, ttl, st, lat⟩
  | .raised m => ⟨none, none, "EXCEPTION: " ++ m, 0⟩

/-- A 12-byte response consisting only of a header announcing one
question: the shortest input on which the question-skipping loop indexes
past the end of the buffer. -/
def truncatedQd1Header : Bytes := [0, 0, 0, 0, 0, 1, 0, 0, 0, 0, 0, 0]

/-- A response whose header carries rcode 3 (NXDOMAIN) and zero
questions, yet whose single answer is an Internet-class address record
1.2.3.4 with TTL 60 behind a compression-pointer name. -/
def nxdomainWithAnswer : Bytes :=
  [0, 0, 0, 3, 0, 0, 0, 1, 0, 0, 0, 0,
   192, 12, 0, 1, 0, 1, 0, 0, 0, 60, 0, 4, 1, 2, 3, 4]

/-- A NOERROR response with one question (name ab) and two
Internet-class address-record answers: 1.2.3.4 with TTL 60, then 5.6.7.8
with TTL 90, both behind compression-pointer names. The answer section
starts at offset 20. -/
def twoAnswerPacket : Bytes :=
  [0, 0, 0, 0, 0, 1, 0, 2, 0, 0, 0, 0,
   2, 97, 98, 0, 0, 1, 0, 1,
   192, 12, 0, 1, 0, 1, 0, 0, 0, 60, 0, 4, 1, 2, 3, 4,
   192, 12, 0, 1, 0, 1, 0, 0, 0, 90, 0, 4, 5, 6, 7, 8]

/-- A domain that is a single 64-byte label, one byte beyond the DNS
label limit. -/
def label64Domain : String :=
  "aaaaaaaaaaaaaaaaaaaaaaaaaaaaaaaaaaaaaaaaaaaaaaaaaaaaaaaaaaaaaaaa"

/-- A domain that is a single 256-byte label, too long for the one-byte
length prefix of the wire format. -/
def label256Domain : String :=
  String.mk (List.replicate 256 'a')

/-- The status parse_dns_response derives from the header alone:
INVALID_RESPONSE for short inputs, otherwise the RCODE table applied to
the low flags nibble. The unpack cannot fail on inputs of at least 12
bytes, so the fallback branch is unreachable. -/
def headerStatus (data : Bytes) : String :=
  if data.length < 12 then "INVALID_RESPONSE"
  else
    match unpack6H (pySlice data 0 12) with
    | .ok (_, flags, _, _, _, _) => statusOf (flags &&& 0x000F)
    | .error _ => "INVALID_RESPONSE"

/-- Whether the fixed answer fields at this offset parse as a qualifying
address record (type A_RECORD, class IN_CLASS, 4 data bytes). -/
def answerFixedFinds (data : Bytes) (o : Nat) : Bool :=
  match answerFixed data o with
  | .ok (.found _ _) => true
  | _ => false

/-- Whether no offset inside the buffer parses as a qualifying address
record: the decidable rendering of an answer section that contains no
entry with address-record type, Internet class and 4-byte data. Offsets
past the buffer cannot qualify, their 10-byte unpack fails. -/
def noQualifyingAnswer (data : Bytes) : Bool :=
  (List.range data.length).all fun o => !(answerFixedFinds data o)

/-- One entry of the DoH JSON Answer array as _parse_doh_response reads
it: the dict lookups of the type, data and TTL keys, each possibly
absent. -/
structure DohAnswer where
  type : Option Nat
  data : Option String
  TTL : Option Nat
deriving DecidableEq

/-- A DoH JSON response as _parse_doh_response reads it: the Status key
and the Answer array, each possibly absent. -/
structure DohResponse where
  status : Option Int
  answer : Option (List DohAnswer)
deriving DecidableEq

/-- The f-string DOH_ERROR status built from a non-zero Status lookup;
an absent key prints as None. -/
def doh_status_string : Option Int → String
  | some n => "DOH_ERROR_" ++ toString n
  | none => "DOH_ERROR_None"

/-- The answer scan of _parse_doh_response: the first entry whose type
key equals 1 yields its data and TTL lookups with status NOERROR, else
NO_ANSWER. -/
def doh_find_a : List DohAnswer → Option String × Option Nat × String
  | [] => (none, none, "NO_ANSWER")
  | a :: rest => if a.type = some 1 then (a.data, a.TTL, "NOERROR") else doh_find_a rest

/-- _parse_doh_response from src/doh_resolver.py: a Status other than 0,
an absent Status included, maps to its DOH_ERROR string; otherwise the
Answer array, defaulted to empty, is scanned for the first type-1
entry. -/
def parse_doh_response (r : DohResponse) : Option String × Option Nat × String :=
  if r.status = some 0 then doh_find_a (r.answer.getD [])
  else (none, none, doh_status_string r.status)

end DNSpector

namespace DNSpector

/-! Lemmas about the embedding, then the claim theorems. -/

/-- Any two fuels beyond the remaining buffer span drive skipNameF to the
same answer: the zero-fuel branch of the embedding is unreachable at the
fuel skipName supplies, so skipName is the unbounded source loop. -/
theorem skipNameF_fuel_irrel (data : Bytes) :
    ∀ f1 f2 offset, data.length - offset < f1 → data.length - offset < f2 →
      skipNameF data f1 offset = skipNameF data f2 offset := by
  intro f1
  induction f1 with
  | zero => intro f2 offset h1 h2; omega
  | succ f1 ih =>
    intro f2 offset h1 h2
    cases f2 with
    | zero => omega
    | succ f2 =>
      simp only [skipNameF]
      cases hg : data[offset]? with
      | none => rfl
      | some b =>
        by_cases hb : b = 0
        · simp [hb]
        · simp only [if_neg hb]
          have hlt : offset < data.length := (List.getElem?_eq_some.mp hg).1
          exact ih f2 (offset + 1 + b) (by omega) (by omega)

/-- Any two fuels beyond the input length drive decodeLabelsF to the same
labels: decode_labels is the unbounded label reader. -/
theorem decodeLabelsF_fuel_irrel :
    ∀ f1 f2 (bs : Bytes), bs.length < f1 → bs.length < f2 →
      decodeLabelsF f1 bs = decodeLabelsF f2 bs := by
  intro f1
  induction f1 with
  | zero => intro f2 bs h1 h2; omega
  | succ f1 ih =>
    intro f2 bs h1 h2
    cases f2 with
    | zero => omega
    | succ f2 =>
      cases bs with
      | nil => rfl
      | cons b rest =>
        simp only [decodeLabelsF]
        by_cases hb : b = 0
        · simp [hb]
        · simp only [if_neg hb]
          have hd : (rest.drop b).length = rest.length - b := List.length_drop b rest
          have hlen1 : rest.length + 1 < f1 + 1 := h1
          have hlen2 : rest.length + 1 < f2 + 1 := h2
          exact congrArg _ (ih f2 (rest.drop b) (by omega) (by omega))

/-- A successful label walk always moves the cursor forward. -/
theorem skipNameF_ge (data : Bytes) :
    ∀ fuel offset r, skipNameF data fuel offset = .ok r → offset + 1 ≤ r := by
  intro fuel
  induction fuel with
  | zero => intro o r h; simp [skipNameF] at h
  | succ fuel ih =>
    intro o r h
    simp only [skipNameF] at h
    cases hg : data[o]? with
    | none => simp only [hg] at h; exact absurd h (by simp)
    | some b =>
      simp only [hg] at h
      by_cases hb : b = 0
      · rw [if_pos hb] at h; injection h with h; omega
      · rw [if_neg hb] at h
        have := ih (o + 1 + b) r h
        omega

/-- A successfully consumed answer name always moves the cursor forward. -/
theorem nameEnd_ge (data : Bytes) (o r : Nat) (h : nameEnd data o = .ok r) : o + 1 ≤ r := by
  simp only [nameEnd] at h
  cases hp : pyIndex data o with
  | error e => rw [hp] at h; simp [bind, Except.bind] at h
  | ok b =>
    rw [hp] at h
    simp only [bind, Except.bind] at h
    by_cases hm : b &&& 0xC0 = 0xC0
    · rw [if_pos hm] at h
      simp only [pure, Except.pure] at h
      injection h with h
      omega
    · rw [if_neg hm] at h
      simp only [skipName] at h
      exact skipNameF_ge data _ o r h

/-- A non-matching answer entry hands the loop an offset at or past its
own fixed fields. -/
theorem answerFixed_next_ge (data : Bytes) (o1 o3 : Nat)
    (h : answerFixed data o1 = .ok (.next o3)) : o1 ≤ o3 := by
  simp only [answerFixed] at h
  cases hu : unpackHHIH (pySlice data o1 (o1 + 10)) with
  | error e => rw [hu] at h; simp [bind, Except.bind] at h
  | ok t =>
    rw [hu] at h
    obtain ⟨atype, aclass, attl, rdlength⟩ := t
    simp only [bind, Except.bind] at h
    by_cases hc : atype = A_RECORD ∧ aclass = IN_CLASS ∧ rdlength = 4
    · rw [if_pos hc] at h; simp at h
    · rw [if_neg hc] at h
      injection h with h
      injection h with h
      omega

/-- Two buffers agreeing from index k on have equal suffixes from any
later start. -/
theorem drop_congr (data data' : Bytes) (k : Nat)
    (hag : ∀ i, k ≤ i → data[i]? = data'[i]?) :
    ∀ s, k ≤ s → data.drop s = data'.drop s := by
  intro s hs
  apply List.ext_getElem?
  intro n
  rw [List.getElem?_drop, List.getElem?_drop]
  exact hag (s + n) (by omega)

/-- Slices taken at or past the agreement point coincide. -/
theorem pySlice_congr (data data' : Bytes) (k : Nat)
    (hag : ∀ i, k ≤ i → data[i]? = data'[i]?)
    (s : Nat) (hs : k ≤ s) (t : Nat) : pySlice data s t = pySlice data' s t := by
  simp only [pySlice]
  rw [drop_congr data data' k hag s hs]

/-- Indexing at or past the agreement point coincides. -/
theorem pyIndex_congr (data data' : Bytes) (k : Nat)
    (hag : ∀ i, k ≤ i → data[i]? = data'[i]?)
    (i : Nat) (hi : k ≤ i) : pyIndex data i = pyIndex data' i := by
  simp only [pyIndex]
  rw [hag i hi]

/-- The label walk reads only bytes at or after its start offset, so it
cannot tell two buffers apart that agree there. -/
theorem skipNameF_congr (data data' : Bytes) (k : Nat)
    (hag : ∀ i, k ≤ i → data[i]? = data'[i]?) :
    ∀ fuel offset, k ≤ offset → skipNameF data fuel offset = skipNameF data' fuel offset := by
  intro fuel
  induction fuel with
  | zero => intro o ho; rfl
  | succ fuel ih =>
    intro o ho
    simp only [skipNameF]
    rw [← hag o ho]
    cases hg : data[o]? with
    | none => rfl
    | some b =>
      by_cases hb : b = 0
      · simp [hb]
      · simp only [if_neg hb]
        exact ih (o + 1 + b) (by omega)

/-- skipName under agreement from index k on, for equal-length buffers. -/
theorem skipName_congr (data data' : Bytes) (k : Nat)
    (hlen : data.length = data'.length)
    (hag : ∀ i, k ≤ i → data[i]? = data'[i]?)
    (o : Nat) (ho : k ≤ o) : skipName data o = skipName data' o := by
  simp only [skipName]
  rw [hlen]
  exact skipNameF_congr data data' k hag (data'.length + 1) o ho

/-- Consuming an answer name reads only bytes at or after its offset. -/
theorem nameEnd_congr (data data' : Bytes) (k : Nat)
    (hlen : data.length = data'.length)
    (hag : ∀ i, k ≤ i → data[i]? = data'[i]?)
    (o : Nat) (ho : k ≤ o) : nameEnd data o = nameEnd data' o := by
  simp only [nameEnd]
  rw [pyIndex_congr data data' k hag o ho]
  cases pyIndex data' o with
  | error e => rfl
  | ok b =>
    by_cases hm : b &&& 0xC0 = 0xC0
    · simp [bind, Except.bind, hm]
    · simp only [bind, Except.bind, if_neg hm]
      exact skipName_congr data data' k hlen hag o ho

/-- The fixed answer fields read only bytes at or after their offset. -/
theorem answerFixed_congr (data data' : Bytes) (k : Nat)
    (hag : ∀ i, k ≤ i → data[i]? = data'[i]?)
    (o1 : Nat) (ho : k ≤ o1) : answerFixed data o1 = answerFixed data' o1 := by
  have h1 : pySlice data o1 (o1 + 10) = pySlice data' o1 (o1 + 10) :=
    pySlice_congr data data' k hag o1 ho _
  have h2 : ∀ t, pySlice data (o1 + 10) t = pySlice data' (o1 + 10) t :=
    fun t => pySlice_congr data data' k hag (o1 + 10) (by omega) t
  simp only [answerFixed, h1, h2]

/-- The answer loop only ever reads bytes at or after its offset, which
never decreases. -/
theorem answerLoop_congr (data data' : Bytes) (k : Nat)
    (hlen : data.length = data'.length)
    (hag : ∀ i, k ≤ i → data[i]? = data'[i]?) :
    ∀ n offset st, k ≤ offset → answerLoop data n offset st = answerLoop data' n offset st := by
  intro n
  induction n with
  | zero => intro o st ho; rfl
  | succ n ih =>
    intro o st ho
    simp only [answerLoop]
    rw [nameEnd_congr data data' k hlen hag o ho]
    cases hne : nameEnd data' o with
    | error e => rfl
    | ok o1 =>
      have ho1 : k ≤ o1 := by
        have := nameEnd_ge data' o o1 hne
        omega
      simp only [bind, Except.bind]
      rw [answerFixed_congr data data' k hag o1 ho1]
      cases haf : answerFixed data' o1 with
      | error e => rfl
      | ok s =>
        cases s with
        | found ip ttl => rfl
        | next o3 =>
          have ho3 : o1 ≤ o3 := answerFixed_next_ge data' o1 o3 haf
          exact ih o3 st (by omega)

/-- Unfolding one answer-loop step whose name byte is a compression
pointer: the cursor advances exactly 2 bytes and parsing continues at the
fixed fields. -/
theorem answerLoop_pointer_step (data : Bytes) (n offset : Nat) (st : String) (b : Nat)
    (hg : data[offset]? = some b) (hm : b &&& 0xC0 = 0xC0) :
    answerLoop data (n + 1) offset st =
      match answerFixed data (offset + 2) with
      | .error e => .error e
      | .ok (.found ip ttl) => .ok (some ip, some ttl, st)
      | .ok (.next o3) => answerLoop data n o3 st := by
  have hne : nameEnd data offset = .ok (offset + 2) := by
    simp [nameEnd, pyIndex, hg, hm, pure, Except.pure, bind, Except.bind]
  simp only [answerLoop, hne, bind, Except.bind]
  cases answerFixed data (offset + 2) with
  | error e => rfl
  | ok s =>
    cases s with
    | found ip ttl => rfl
    | next o3 => rfl

/-- Reading the byte at the split point of a split buffer. -/
theorem getElem?_at_split (pre post : Bytes) (b : Nat) :
    (pre ++ b :: post)[pre.length]? = some b := by
  rw [List.getElem?_append_right (le_refl _)]
  simp

/-- Two buffers differing only at the split point agree at every later
index. -/
theorem getElem?_agree_above (pre post : Bytes) (b b' : Nat) :
    ∀ i, pre.length + 1 ≤ i → (pre ++ b :: post)[i]? = (pre ++ b' :: post)[i]? := by
  intro i hi
  rw [List.getElem?_append_right (by omega), List.getElem?_append_right (by omega)]
  have hsplit : i - pre.length = (i - pre.length - 1) + 1 := by omega
  rw [hsplit]
  rfl

/-- Every successful answer-loop outcome carries the status it was given:
the answer scan never changes the header-derived status. -/
theorem answerLoop_status (data : Bytes) :
    ∀ n offset st res, answerLoop data n offset st = .ok res → res.2.2 = st := by
  intro n
  induction n with
  | zero =>
    intro offset st res h
    simp only [answerLoop] at h
    injection h with h
    subst h
    rfl
  | succ n ih =>
    intro offset st res h
    simp only [answerLoop] at h
    cases h1 : nameEnd data offset with
    | error e => rw [h1] at h; simp [bind, Except.bind] at h
    | ok o1 =>
      rw [h1] at h
      simp only [bind, Except.bind] at h
      cases h2 : answerFixed data o1 with
      | error e => rw [h2] at h; simp at h
      | ok s =>
        rw [h2] at h
        cases s with
        | found ip ttl => injection h with h; subst h; rfl
        | next o3 => exact ih o3 st res h

/-- The answer loop sets the address and the TTL together. -/
theorem answerLoop_ttl_iff (data : Bytes) :
    ∀ n offset st res, answerLoop data n offset st = .ok res →
      (res.1.isSome ↔ res.2.1.isSome) := by
  intro n
  induction n with
  | zero =>
    intro offset st res h
    simp only [answerLoop] at h
    injection h with h
    subst h
    simp
  | succ n ih =>
    intro offset st res h
    simp only [answerLoop] at h
    cases h1 : nameEnd data offset with
    | error e => rw [h1] at h; simp [bind, Except.bind] at h
    | ok o1 =>
      rw [h1] at h
      simp only [bind, Except.bind] at h
      cases h2 : answerFixed data o1 with
      | error e => rw [h2] at h; simp at h
      | ok s =>
        rw [h2] at h
        cases s with
        | found ip ttl => injection h with h; subst h; simp
        | next o3 => exact ih o3 st res h

/-- No RCODE-derived status string, mapped or unmapped, reads NO_ANSWER;
the rcode is a nibble, so only values up to 15 occur. -/
theorem statusOf_ne_no_answer (r : Nat) (hr : r ≤ 15) : statusOf r ≠ "NO_ANSWER" := by
  interval_cases r <;> decide

/-- Appending to a prefix longer than the target never reproduces the
target string. -/
theorem string_append_ne (pre m target : String) (hlen : target.length < pre.length) :
    pre ++ m ≠ target := by
  intro h
  have hl := congrArg String.length h
  rw [String.length_append] at hl
  omega

/-- An ASCII character encodes as exactly one UTF-8 byte, so an ASCII
label has as many wire bytes as characters, matching its length
prefix. -/
theorem labelBytes_length_ascii :
    ∀ (p : List Char), (∀ c ∈ p, c.toNat < 128) → (labelBytes p).length = p.length := by
  intro p
  induction p with
  | nil => intro _; rfl
  | cons c rest ih =>
    intro h
    have hc : c.toNat < 128 := h c (List.mem_cons_self c rest)
    have hrest := ih (fun d hd => h d (List.mem_cons_of_mem c hd))
    have hone : (utf8Bytes c).length = 1 := by
      simp [utf8Bytes, if_pos hc]
    simp only [labelBytes, List.flatMap_cons, List.length_append, List.length_cons] at *
    omega

/-- The ten-field unpack fails on any slice that is not exactly ten
bytes. -/
theorem unpackHHIH_not_ten (bs : Bytes) (h : bs.length ≠ 10) :
    unpackHHIH bs = .error .structError := by
  rcases bs with _ | ⟨a, bs⟩; · rfl
  rcases bs with _ | ⟨b, bs⟩; · rfl
  rcases bs with _ | ⟨c, bs⟩; · rfl
  rcases bs with _ | ⟨d, bs⟩; · rfl
  rcases bs with _ | ⟨e, bs⟩; · rfl
  rcases bs with _ | ⟨f, bs⟩; · rfl
  rcases bs with _ | ⟨g, bs⟩; · rfl
  rcases bs with _ | ⟨h8, bs⟩; · rfl
  rcases bs with _ | ⟨i9, bs⟩; · rfl
  rcases bs with _ | ⟨j, bs⟩; · rfl
  rcases bs with _ | ⟨k, bs⟩
  · simp at h
  · rfl

/-- An offset too close to the end of the buffer cannot parse as a
qualifying answer: its ten-byte unpack fails first. -/
theorem answerFixed_nofind_of_short (data : Bytes) (o : Nat) (ho : data.length < o + 10)
    (ip : String) (ttl : Nat) : answerFixed data o ≠ .ok (.found ip ttl) := by
  have hlen : (pySlice data o (o + 10)).length ≠ 10 := by
    simp only [pySlice, List.length_take, List.length_drop]
    omega
  simp [answerFixed, unpackHHIH_not_ten _ hlen, bind, Except.bind]

/-- When no offset parses as a qualifying answer, the answer loop can
only run out of entries, leaving both address and TTL absent. -/
theorem answerLoop_no_found (data : Bytes)
    (hnone : ∀ (o : Nat) (ip : String) (ttl : Nat),
      answerFixed data o ≠ .ok (.found ip ttl)) :
    ∀ n offset st res, answerLoop data n offset st = .ok res →
      res.1 = none ∧ res.2.1 = none := by
  intro n
  induction n with
  | zero =>
    intro offset st res h
    simp only [answerLoop] at h
    injection h with h
    subst h
    exact ⟨rfl, rfl⟩
  | succ n ih =>
    intro offset st res h
    simp only [answerLoop] at h
    cases h1 : nameEnd data offset with
    | error e => rw [h1] at h; simp [bind, Except.bind] at h
    | ok o1 =>
      rw [h1] at h
      simp only [bind, Except.bind] at h
      cases h2 : answerFixed data o1 with
      | error e => rw [h2] at h; simp at h
      | ok s =>
        rw [h2] at h
        cases s with
        | found ip ttl => exact absurd h2 (hnone o1 ip ttl)
        | next o3 => exact ih o3 st res h

/-- When every type-1 answer carries a data value, the DoH answer scan
couples its address to status NOERROR and reports a TTL only alongside
an address. -/
theorem doh_find_a_coupling :
    ∀ (l : List DohAnswer), (∀ a ∈ l, a.type = some 1 → a.data.isSome) →
      (((doh_find_a l).1.isSome ↔ (doh_find_a l).2.2 = "NOERROR")
       ∧ ((doh_find_a l).2.1.isSome → (doh_find_a l).1.isSome)) := by
  intro l
  induction l with
  | nil =>
    intro _
    constructor
    · simp only [doh_find_a, Option.isSome_none]
      constructor
      · intro hfalse; exact absurd hfalse (by simp)
      · intro hcontra; exact absurd hcontra (by decide)
    · intro hcontra; exact absurd hcontra (by simp [doh_find_a])
  | cons a rest ih =>
    intro hp
    by_cases ht : a.type = some 1
    · have hd : a.data.isSome := hp a (List.mem_cons_self a rest) ht
      simp [doh_find_a, ht, hd]
    · simp only [doh_find_a, if_neg ht]
      exact ih (fun b hb => hp b (List.mem_cons_of_mem a hb))

/-- Encoding succeeds whenever every label fits its one-byte length
prefix. -/
theorem encodeParts_ok :
    ∀ (parts : List (List Char)), (∀ p ∈ parts, p.length ≤ 255) →
      ∃ bs, encodeParts parts = .ok bs := by
  intro parts
  induction parts with
  | nil => intro _; exact ⟨[], rfl⟩
  | cons p rest ih =>
    intro hp
    obtain ⟨bs', hbs'⟩ := ih (fun q hq => hp q (List.mem_cons_of_mem p hq))
    have hlen : p.length ≤ 255 := hp p (List.mem_cons_self p rest)
    refine ⟨[p.length] ++ labelBytes p ++ bs', ?_⟩
    simp only [encodeParts, pack_B, if_pos hlen, bind, Except.bind, hbs', pure, Except.pure]

/-- Encoding fails with a struct packing error whenever some label
exceeds the one-byte length prefix. -/
theorem encodeParts_err :
    ∀ (parts : List (List Char)), (∃ p ∈ parts, 255 < p.length) →
      encodeParts parts = .error .structError := by
  intro parts
  induction parts with
  | nil => intro h; simp at h
  | cons p rest ih =>
    intro h
    by_cases hp : 255 < p.length
    · simp only [encodeParts, pack_B, if_neg (by omega : ¬ p.length ≤ 255), bind, Except.bind]
    · obtain ⟨q, hq, hqlen⟩ := h
      rcases List.mem_cons.mp hq with rfl | hq'
      · omega
      · have hrest := ih ⟨q, hq', hqlen⟩
        simp only [encodeParts, pack_B, if_pos (by omega : p.length ≤ 255), bind, Except.bind,
          hrest]

/-- Reading back an encoded label sequence returns the labels, for
nonempty ASCII labels within the DNS limit and any sufficient fuel; on
ASCII labels the character-count length prefix equals the number of wire
bytes, which is what lets the decoder step over each label exactly. -/
theorem decodeF_encodeParts :
    ∀ (parts : List (List Char)) (bs : Bytes) (fuel : Nat),
      (∀ p ∈ parts, (1 ≤ p.length ∧ p.length ≤ 63) ∧ (∀ c ∈ p, c.toNat < 128)) →
      encodeParts parts = .ok bs →
      bs.length < fuel →
      decodeLabelsF fuel (bs ++ [0]) = parts.map labelBytes := by
  intro parts
  induction parts with
  | nil =>
    intro bs fuel hp henc hf
    simp only [encodeParts] at henc
    injection henc with henc
    subst henc
    cases fuel with
    | zero => omega
    | succ fuel => simp [decodeLabelsF]
  | cons p rest ih =>
    intro bs fuel hp henc hf
    obtain ⟨⟨hp1ge, hp1le⟩, hp1ascii⟩ := hp p (List.mem_cons_self p rest)
    have hp1 : 1 ≤ p.length ∧ p.length ≤ 63 := ⟨hp1ge, hp1le⟩
    simp only [encodeParts, pack_B, if_pos (by omega : p.length ≤ 255), bind, Except.bind] at henc
    cases hrest : encodeParts rest with
    | error e => rw [hrest] at henc; simp at henc
    | ok bs' =>
      rw [hrest] at henc
      simp only [pure, Except.pure] at henc
      injection henc with henc
      subst henc
      cases fuel with
      | zero => simp at hf
      | succ fuel =>
        have hlb : (labelBytes p).length = p.length := labelBytes_length_ascii p hp1ascii
        have hshape : ([p.length] ++ labelBytes p ++ bs') ++ [0]
            = p.length :: (labelBytes p ++ (bs' ++ [0])) := by simp
        rw [hshape]
        simp only [decodeLabelsF]
        rw [if_neg (by omega : ¬ p.length = 0)]
        rw [List.take_left' hlb, List.drop_left' hlb]
        have hrec : decodeLabelsF fuel (bs' ++ [0]) = rest.map labelBytes := by
          apply ih bs' fuel (fun q hq => hp q (List.mem_cons_of_mem p hq)) hrest
          have hbslen : ([p.length] ++ labelBytes p ++ bs').length = 1 + p.length + bs'.length := by
            simp [hlb]
            omega
          omega
        rw [hrec]
        simp

/-! The claim theorems. -/

/-- C1 (code bug). The claim says two successful resolutions of a
(domain, resolver) pair with differing addresses emit exactly one
IpChanged event. In the code, log_dns_result inserts the new row before
running the change check, so get_last_ip already returns the new address
and the comparison never finds a difference: no call to log_dns_result
can ever append an alert, against the claim, the spec and the program's
own test_ip_change_detection. -/
theorem log_dns_result_never_alerts (db : DBState) (domain resolver : String)
    (ip : Option String) (ttl : Option Nat) (status : String) (lat : Nat) :
    (log_dns_result db domain resolver ip ttl status lat).alerts = db.alerts := by
  cases ip with
  | none => rfl
  | some s =>
    show (if s ≠ "" ∧ status = "NOERROR" then
            check_ip_change
              { db with logs := db.logs ++ [⟨domain, resolver, some s, ttl, status, lat⟩] }
              domain resolver s
          else
            { db with logs := db.logs ++ [⟨domain, resolver, some s, ttl, status, lat⟩] }).alerts
        = db.alerts
    by_cases hc : s ≠ "" ∧ status = "NOERROR"
    · rw [if_pos hc]
      have hrow : rowMatches domain resolver ⟨domain, resolver, some s, ttl, status, lat⟩ = true := by
        simp [rowMatches]
      have hlast :
          get_last_ip { db with logs := db.logs ++ [⟨domain, resolver, some s, ttl, status, lat⟩] }
            domain resolver = some s := by
        simp only [get_last_ip, List.reverse_append, List.reverse_cons, List.reverse_nil,
          List.nil_append, List.singleton_append]
        rw [List.find?_cons_of_pos _ hrow]
      simp only [check_ip_change, hlast]
      rw [if_neg (by simp)]
    · rw [if_neg hc]

/-- C2 (code bug). The claim says any input of length at least 12 decodes
to an InvalidResponse or ParseError status without reading past the end.
On the 12-byte header announcing one question, the question-skipping loop
indexes data at offset 12, one past the end of the buffer, and raises
IndexError instead of returning a status. -/
theorem parse_truncated_raises_index_error :
    parse_dns_response truncatedQd1Header = .error .indexError ∧
    truncatedQd1Header.length = 12 :=
  ⟨rfl, rfl⟩

/-- C3 counterexample: a response whose header reports NXDOMAIN but whose
answer section carries an Internet-class address record decodes to an
address together with the non-NoError status, and on the DoH path a
type-1 answer whose data key is absent yields status NOERROR with no
address and a TTL without an address, so the claimed couplings fail on
both decode paths. -/
theorem parse_breaks_address_status_coupling :
    parse_dns_response nxdomainWithAnswer = .ok (some "1.2.3.4", some 60, "NXDOMAIN")
    ∧ ("NXDOMAIN" : String) ≠ "NOERROR"
    ∧ parse_doh_response ⟨some 0, some [⟨some 1, none, some 300⟩]⟩
      = (none, some 300, "NOERROR") :=
  ⟨rfl, by decide, rfl⟩

/-- C3 (corrected). What holds: every parse_dns_response result carries a
TTL exactly when it carries an address; resolve_system couples its
address to status NOERROR with no TTL; and _parse_doh_response couples
its address to status NOERROR, with a TTL only alongside an address,
provided every type-1 answer carries a data value. The address-iff-NoError
half fails for parse_dns_response, whose status comes from the header
rcode independently of the answer scan, and both halves fail for
_parse_doh_response on a type-1 answer whose data key is absent. -/
theorem address_ttl_coupling :
    (∀ (data : Bytes) (res : Option String × Option Nat × String),
        parse_dns_response data = .ok res → (res.1.isSome ↔ res.2.1.isSome))
    ∧ (∀ (o : SysOutcome) (lat : Nat),
        ((resolve_system o lat).1.isSome ↔ (resolve_system o lat).2.2.1 = "NOERROR")
        ∧ (resolve_system o lat).2.1 = none)
    ∧ (∀ (r : DohResponse),
        (∀ a ∈ r.answer.getD [], a.type = some 1 → a.data.isSome) →
        (((parse_doh_response r).1.isSome ↔ (parse_doh_response r).2.2 = "NOERROR")
         ∧ ((parse_doh_response r).2.1.isSome → (parse_doh_response r).1.isSome))) := by
  refine ⟨?_, ?_, ?_⟩
  · intro data res h
    by_cases hlen : data.length < 12
    · simp only [parse_dns_response, if_pos hlen] at h
      injection h with h
      subst h
      simp
    · simp only [parse_dns_response, if_neg hlen] at h
      cases hu : unpack6H (pySlice data 0 12) with
      | error e => rw [hu] at h; simp [bind, Except.bind] at h
      | ok t =>
        rw [hu] at h
        obtain ⟨tid, flags, qd, an, ns, ar⟩ := t
        simp only [bind, Except.bind] at h
        cases hs : skipQuestions data qd 12 with
        | error e => rw [hs] at h; simp at h
        | ok off =>
          rw [hs] at h
          exact answerLoop_ttl_iff data an off _ res h
  · intro o lat
    cases o with
    | addr ip => exact ⟨by simp [resolve_system], rfl⟩
    | gaierror m =>
      refine ⟨?_, rfl⟩
      have hne : ("GAIERRO: " ++ m) ≠ "NOERROR" :=
        string_append_ne "GAIERRO: " m "NOERROR" (by decide)
      simp [resolve_system, hne]
    | exc m =>
      refine ⟨?_, rfl⟩
      have hne : ("EXCEPTION: " ++ m) ≠ "NOERROR" :=
        string_append_ne "EXCEPTION: " m "NOERROR" (by decide)
      simp [resolve_system, hne]
  · intro r hp
    by_cases hs : r.status = some 0
    · simp only [parse_doh_response, if_pos hs]
      exact doh_find_a_coupling (r.answer.getD []) hp
    · simp only [parse_doh_response, if_neg hs]
      refine ⟨?_, by simp⟩
      have hne : doh_status_string r.status ≠ "NOERROR" := by
        cases hst : r.status with
        | none => simp only [doh_status_string]; decide
        | some n =>
          simp only [doh_status_string]
          exact string_append_ne "DOH_ERROR_" (toString n) "NOERROR" (by decide)
      simp [hne]

/-- C3 witness: the coupling theorem evaluated on the NXDOMAIN response
that carries an answer and on a DoH response whose single type-1 answer
carries its data value. -/
theorem address_ttl_coupling_witness :
    (parse_dns_response nxdomainWithAnswer = .ok (some "1.2.3.4", some 60, "NXDOMAIN")
     ∧ ((some "1.2.3.4" : Option String).isSome ↔ (some 60 : Option Nat).isSome))
    ∧ ((parse_doh_response ⟨some 0, some [⟨some 1, some "9.9.9.9", some 100⟩]⟩).1.isSome
        ↔ (parse_doh_response ⟨some 0, some [⟨some 1, some "9.9.9.9", some 100⟩]⟩).2.2
          = "NOERROR") :=
  ⟨⟨rfl, address_ttl_coupling.1 nxdomainWithAnswer (some "1.2.3.4", some 60, "NXDOMAIN") rfl⟩,
   (address_ttl_coupling.2.2 ⟨some 0, some [⟨some 1, some "9.9.9.9", some 100⟩]⟩
     (by decide)).1⟩

/-- C4 counterexample: a well-formed NOERROR response with an empty
answer section decodes to status NOERROR, not to any NoAnswer status. -/
theorem parse_noerror_without_answer :
    parse_dns_response (List.replicate 12 0) = .ok (none, none, "NOERROR") ∧
    ("NOERROR" : String) ≠ "NO_ANSWER" :=
  ⟨rfl, by decide⟩

/-- C4 (corrected). Every successful decode reports exactly the
RCODE-mapped header status, never a NoAnswer status, which does not exist
in the UDP decode path; and whenever no offset of the buffer parses as a
qualifying answer entry, the result also carries no address and no TTL,
so a NOERROR header without a qualifying answer yields status NOERROR
with nothing else. -/
theorem parse_keeps_header_status :
    (∀ (data : Bytes) (res : Option String × Option Nat × String),
        parse_dns_response data = .ok res →
        res.2.2 = headerStatus data ∧ res.2.2 ≠ "NO_ANSWER")
    ∧ (∀ (data : Bytes) (res : Option String × Option Nat × String),
        noQualifyingAnswer data = true →
        parse_dns_response data = .ok res →
        res.1 = none ∧ res.2.1 = none) := by
  constructor
  · intro data res h
    by_cases hlen : data.length < 12
    · simp only [parse_dns_response, if_pos hlen] at h
      injection h with h
      subst h
      exact ⟨by simp [headerStatus, if_pos hlen], by decide⟩
    · simp only [parse_dns_response, if_neg hlen] at h
      cases hu : unpack6H (pySlice data 0 12) with
      | error e => rw [hu] at h; simp [bind, Except.bind] at h
      | ok t =>
        rw [hu] at h
        obtain ⟨tid, flags, qd, an, ns, ar⟩ := t
        simp only [bind, Except.bind] at h
        cases hs : skipQuestions data qd 12 with
        | error e => rw [hs] at h; simp at h
        | ok off =>
          rw [hs] at h
          have hst := answerLoop_status data an off (statusOf (flags &&& 0x000F)) res h
          constructor
          · rw [hst]
            simp only [headerStatus, if_neg hlen, hu]
          · rw [hst]
            exact statusOf_ne_no_answer _ Nat.and_le_right
  · intro data res hq h
    have hnone : ∀ (o : Nat) (ip : String) (ttl : Nat),
        answerFixed data o ≠ .ok (.found ip ttl) := by
      intro o ip ttl hc
      by_cases ho : o < data.length
      · simp only [noQualifyingAnswer] at hq
        have hall := (List.all_eq_true.mp hq) o (List.mem_range.mpr ho)
        simp [answerFixedFinds, hc] at hall
      · exact answerFixed_nofind_of_short data o (by omega) ip ttl hc
    by_cases hlen : data.length < 12
    · simp only [parse_dns_response, if_pos hlen] at h
      injection h with h
      subst h
      exact ⟨rfl, rfl⟩
    · simp only [parse_dns_response, if_neg hlen] at h
      cases hu : unpack6H (pySlice data 0 12) with
      | error e => rw [hu] at h; simp [bind, Except.bind] at h
      | ok t =>
        rw [hu] at h
        obtain ⟨tid, flags, qd, an, ns, ar⟩ := t
        simp only [bind, Except.bind] at h
        cases hs : skipQuestions data qd 12 with
        | error e => rw [hs] at h; simp at h
        | ok off =>
          rw [hs] at h
          exact answerLoop_no_found data hnone an off _ res h

/-- C4 witness: the header-status theorem evaluated on the all-zero
NOERROR header with an empty answer section, both halves applied. -/
theorem parse_keeps_header_status_witness :
    (("NOERROR" : String) = headerStatus (List.replicate 12 0)
     ∧ ("NOERROR" : String) ≠ "NO_ANSWER")
    ∧ ((none : Option String) = none ∧ (none : Option Nat) = none) :=
  ⟨parse_keeps_header_status.1 (List.replicate 12 0) (none, none, "NOERROR") rfl,
   parse_keeps_header_status.2 (List.replicate 12 0) (none, none, "NOERROR") (by decide) rfl⟩

/-- C5 counterexample: a single 64-byte label, over the 63-byte DNS label
limit, is encoded without any error; build_dns_query silently produces a
packet instead of failing with an EncodingError. -/
theorem build_accepts_64_byte_label :
    buildSucceeds 0 label64Domain = true
    ∧ label64Domain.length = 64
    ∧ (splitDot label64Domain.toList).map List.length = [64] :=
  ⟨rfl, rfl, rfl⟩

/-- C5 (corrected). build_dns_query performs no label or name length
validation: it silently produces a packet whenever every label fits the
one-byte length prefix, labels of 64 to 255 bytes and names over 255
bytes included, and only a label of more than 255 bytes makes it fail,
with a struct packing error rather than a dedicated EncodingError. -/
theorem build_length_validation :
    (∀ (tid : Nat) (domain : String),
        (∀ part ∈ splitDot domain.toList, part.length ≤ 255) →
        buildSucceeds tid domain = true)
    ∧ (∀ (tid : Nat) (domain : String),
        (∃ part ∈ splitDot domain.toList, 255 < part.length) →
        build_dns_query tid domain = .error .structError) := by
  constructor
  · intro tid domain hp
    obtain ⟨bs, hbs⟩ := encodeParts_ok (splitDot domain.toList) hp
    simp only [buildSucceeds, build_dns_query, encode_domain, bind, Except.bind, hbs, pure,
      Except.pure]
  · intro tid domain hex
    have herr := encodeParts_err (splitDot domain.toList) hex
    simp only [build_dns_query, encode_domain, bind, Except.bind, herr]

set_option maxRecDepth 4096 in
/-- C5 witness: the validation theorem evaluated on a short domain and on
a 256-byte label. -/
theorem build_length_validation_witness :
    buildSucceeds 0 "ab" = true
    ∧ build_dns_query 0 label256Domain = .error .structError :=
  ⟨build_length_validation.1 0 "ab" (by decide),
   build_length_validation.2 0 label256Domain (by decide)⟩

/-- C6 (confirmed). An answer name starting with a byte whose top two
bits are set is consumed as exactly two bytes: the loop step reduces to
the fixed-field parse at offset + 2, and the outcome is identical for any
two pointer bytes, so the remaining pointer bits, the pointer's target,
are never read. -/
theorem pointer_name_consumed_as_two_bytes (pre post : Bytes) (n : Nat) (st : String)
    (b b' : Nat) (hb : b &&& 0xC0 = 0xC0) (hb' : b' &&& 0xC0 = 0xC0) :
    answerLoop (pre ++ b :: post) (n + 1) pre.length st =
      (match answerFixed (pre ++ b :: post) (pre.length + 2) with
       | .error e => .error e
       | .ok (.found ip ttl) => .ok (some ip, some ttl, st)
       | .ok (.next o3) => answerLoop (pre ++ b :: post) n o3 st)
    ∧ answerLoop (pre ++ b :: post) (n + 1) pre.length st
      = answerLoop (pre ++ b' :: post) (n + 1) pre.length st := by
  have hstep := answerLoop_pointer_step (pre ++ b :: post) n pre.length st b
    (getElem?_at_split pre post b) hb
  have hstep' := answerLoop_pointer_step (pre ++ b' :: post) n pre.length st b'
    (getElem?_at_split pre post b') hb'
  refine ⟨hstep, ?_⟩
  rw [hstep, hstep']
  have hag := getElem?_agree_above pre post b b'
  have hlen : (pre ++ b :: post).length = (pre ++ b' :: post).length := by simp
  have haf : answerFixed (pre ++ b :: post) (pre.length + 2)
      = answerFixed (pre ++ b' :: post) (pre.length + 2) :=
    answerFixed_congr _ _ (pre.length + 1) hag (pre.length + 2) (by omega)
  rw [haf]
  cases hx : answerFixed (pre ++ b' :: post) (pre.length + 2) with
  | error e => rfl
  | ok s =>
    cases s with
    | found ip ttl => rfl
    | next o3 =>
      have ho3 : pre.length + 2 ≤ o3 := answerFixed_next_ge _ _ _ hx
      exact answerLoop_congr _ _ (pre.length + 1) hlen hag n o3 st (by omega)

/-- C6 witness: the pointer theorem evaluated on a one-answer packet with
pointer bytes 0xC0 and 0xDE. -/
theorem pointer_name_consumed_as_two_bytes_witness :
    answerLoop ([0, 0, 0, 0, 0, 1, 0, 1, 0, 0, 0, 0]
        ++ 192 :: [12, 0, 1, 0, 1, 0, 0, 0, 60, 0, 4, 1, 2, 3, 4]) 1 12 "NOERROR"
      = answerLoop ([0, 0, 0, 0, 0, 1, 0, 1, 0, 0, 0, 0]
        ++ 222 :: [12, 0, 1, 0, 1, 0, 0, 0, 60, 0, 4, 1, 2, 3, 4]) 1 12 "NOERROR" :=
  (pointer_name_consumed_as_two_bytes [0, 0, 0, 0, 0, 1, 0, 1, 0, 0, 0, 0]
    [12, 0, 1, 0, 1, 0, 0, 0, 60, 0, 4, 1, 2, 3, 4] 0 "NOERROR" 192 222
    (by decide) (by decide)).2

/-- C7 (confirmed). As soon as the answer entry under the cursor is an
Internet-class address record with 4 data bytes, the answer loop returns
that entry's address and TTL, whatever the number of remaining answers:
every later answer is ignored. -/
theorem first_matching_answer_wins (data : Bytes) (n offset : Nat) (st : String)
    (o1 : Nat) (ip : String) (ttl : Nat)
    (h1 : nameEnd data offset = .ok o1)
    (h2 : answerFixed data o1 = .ok (.found ip ttl)) :
    answerLoop data (n + 1) offset st = .ok (some ip, some ttl, st) := by
  simp only [answerLoop, h1, bind, Except.bind, h2]

/-- C7 witness: the first-match theorem on the two-answer packet, whose
second answer 5.6.7.8 is ignored. -/
theorem first_matching_answer_wins_witness :
    answerLoop twoAnswerPacket 2 20 "NOERROR" = .ok (some "1.2.3.4", some 60, "NOERROR") :=
  first_matching_answer_wins twoAnswerPacket 1 20 "NOERROR" 22 "1.2.3.4" 60 rfl rfl

/-- C8 counterexample: two domains inside the claim's hypotheses whose
round trip fails. The domain with an empty middle label, every label at
most 63 bytes and the encoded form at most 255 bytes, re-decodes with two
labels lost, the empty label having encoded as the zero terminator; and a
one-character non-ASCII label gets a length prefix of 1 (Python counts
characters) over 2 UTF-8 wire bytes, so its encoding re-decodes to the
wrong labels. -/
theorem round_trip_fails_on_empty_label :
    encode_domain "a..b" = .ok [1, 97, 0, 1, 98, 0]
    ∧ decode_labels [1, 97, 0, 1, 98, 0] = [[97]]
    ∧ (splitDot "a..b".toList).map labelBytes = [[97], [], [98]]
    ∧ (splitDot "a..b".toList).map List.length = [1, 0, 1]
    ∧ ([1, 97, 0, 1, 98, 0] : Bytes).length ≤ 255
    ∧ ([[97]] : List Bytes) ≠ [[97], [], [98]]
    ∧ encode_domain "é" = .ok [1, 195, 169, 0]
    ∧ decode_labels [1, 195, 169, 0] = [[195], [0]]
    ∧ (splitDot "é".toList).map labelBytes = [[195, 169]]
    ∧ ([[195], [0]] : List Bytes) ≠ [[195, 169]] :=
  ⟨rfl, rfl, rfl, rfl, by decide, by decide, rfl, rfl, rfl, by decide⟩

/-- C8 (corrected). With every label additionally nonempty and ASCII,
re-decoding the question name of an encoded domain returns the original
labels, byte for byte. An empty label encodes as the zero terminator
itself, and a non-ASCII label gets a character-count length prefix that
undercounts its UTF-8 wire bytes; either breaks the round trip. -/
theorem round_trip_for_nonempty_labels (domain : String) (q : Bytes)
    (henc : encode_domain domain = .ok q)
    (hsize : q.length ≤ 255)
    (hlabels : ∀ part ∈ splitDot domain.toList, 1 ≤ part.length ∧ part.length ≤ 63)
    (hascii : ∀ part ∈ splitDot domain.toList, ∀ c ∈ part, c.toNat < 128) :
    decode_labels q = (splitDot domain.toList).map labelBytes := by
  simp only [encode_domain, bind, Except.bind] at henc
  cases hbody : encodeParts (splitDot domain.toList) with
  | error e => rw [hbody] at henc; simp at henc
  | ok body =>
    rw [hbody] at henc
    simp only [pure, Except.pure] at henc
    injection henc with henc
    subst henc
    simp only [decode_labels]
    apply decodeF_encodeParts (splitDot domain.toList) body _
      (fun p hp => ⟨hlabels p hp, hascii p hp⟩) hbody
    have hq : (body ++ [0]).length = body.length + 1 := by simp
    omega

/-- C8 witness: the round trip evaluated on ab.cd. -/
theorem round_trip_for_nonempty_labels_witness :
    decode_labels [2, 97, 98, 2, 99, 100, 0] = (splitDot "ab.cd".toList).map labelBytes :=
  round_trip_for_nonempty_labels "ab.cd" [2, 97, 98, 2, 99, 100, 0] rfl (by decide) (by decide)
    (by decide)

/-- C9 (confirmed). The fan-out of resolve_and_log returns exactly one
entry per target in the fixed order google, cloudflare, system, each
equal to the spec-side entry of that target's own transport outcome
alone: a timeout, error status or raised exception at one target can
neither remove nor alter another target's entry, and a succeeding target
keeps its address and status. -/
theorem resolve_and_log_isolates_targets (tr : String → TargetOutcome) (db : DBState)
    (domain : String) :
    (resolve_and_log tr db domain).1 =
      [("google", entryFor (tr "google")),
       ("cloudflare", entryFor (tr "cloudflare")),
       ("system", entryFor (tr "system"))] := by
  cases hG : tr "google" <;> cases hC : tr "cloudflare" <;> cases hS : tr "system" <;>
    simp [resolve_and_log, TARGETS, resolveAndLogGo, resolve_with_resolver, RESOLVER_NAMES,
      entryFor, hG, hC, hS]

/-- C10 (confirmed). Two packets built for the same domain coincide
byte for byte from offset 2 on and have equal length: only the two
transaction-identifier bytes at offsets 0 and 1 depend on anything but
the domain. -/
theorem query_payload_depends_only_on_domain (tid1 tid2 : Nat) (domain : String)
    (pkt1 pkt2 : Bytes)
    (h1 : build_dns_query tid1 domain = .ok pkt1)
    (h2 : build_dns_query tid2 domain = .ok pkt2) :
    pkt1.drop 2 = pkt2.drop 2 ∧ pkt1.length = pkt2.length := by
  simp only [build_dns_query, bind, Except.bind] at h1 h2
  cases he : encode_domain domain with
  | error e => rw [he] at h1; simp at h1
  | ok q =>
    rw [he] at h1
    rw [he] at h2
    simp only [pure, Except.pure] at h1 h2
    injection h1 with h1
    injection h2 with h2
    subst h1
    subst h2
    constructor
    · simp [pack_H]
    · simp [pack_H]

/-- C10 witness: the determinism theorem on the query for ab under
transaction identifiers 0 and 65535. -/
theorem query_payload_depends_only_on_domain_witness :
    ([0, 0, 1, 0, 0, 1, 0, 0, 0, 0, 0, 0, 2, 97, 98, 0, 0, 1, 0, 1] : Bytes).drop 2
      = ([255, 255, 1, 0, 0, 1, 0, 0, 0, 0, 0, 0, 2, 97, 98, 0, 0, 1, 0, 1] : Bytes).drop 2
    ∧ ([0, 0, 1, 0, 0, 1, 0, 0, 0, 0, 0, 0, 2, 97, 98, 0, 0, 1, 0, 1] : Bytes).length
      = ([255, 255, 1, 0, 0, 1, 0, 0, 0, 0, 0, 0, 2, 97, 98, 0, 0, 1, 0, 1] : Bytes).length :=
  query_payload_depends_only_on_domain 0 65535 "ab"
    [0, 0, 1, 0, 0, 1, 0, 0, 0, 0, 0, 0, 2, 97, 98, 0, 0, 1, 0, 1]
    [255, 255, 1, 0, 0, 1, 0, 0, 0, 0, 0, 0, 2, 97, 98, 0, 0, 1, 0, 1] rfl rfl

end DNSpector
